import Mathlib

/-!
Verification of the wenwin-sdk core components against their natural-language
specification.  The repository's TypeScript sources are shallowly embedded:

* `src/utils/ticket.ts` — combination codec and random-ticket generation.
  `BigNumber` bit-packed tickets become `ℕ` with bitwise operations; a
  combination (`Set<number>`) becomes a `Finset ℕ`.
* `src/lottery/lottery.ts` — the `Lottery` facade's reward calculation
  (`BigNumber` arithmetic becomes `ℤ` with truncating division `Int.tdiv`,
  matching `BigNumber.div`), the tier-indexed map conversion, the win-amount
  query, and the `LotteryTicketHistory` lifecycle classifier.  The file holds
  two revisions of `LotteryTicketHistory.getStatus`; both are embedded.
-/

namespace WenwinSdk

/-! ## Combination codec (src/utils/ticket.ts) -/

/-- A set of chosen lottery numbers (`TicketCombination = Set<number>`). -/
abbrev TicketCombination := Finset ℕ

/-- `isValidLotteryTicket` from ticket.ts: the cardinality equals
`selectionSize` and every member lies in `[1, selectionMax]`. -/
def isValidLotteryTicket (numbers : TicketCombination)
    (selectionSize selectionMax : ℕ) : Prop :=
  numbers.card = selectionSize ∧ ∀ n ∈ numbers, 1 ≤ n ∧ n ≤ selectionMax

instance (numbers : TicketCombination) (selectionSize selectionMax : ℕ) :
    Decidable (isValidLotteryTicket numbers selectionSize selectionMax) := by
  unfold isValidLotteryTicket; infer_instance

instance : Std.Commutative (fun a b : ℕ => a ||| b) := ⟨Nat.lor_comm⟩

instance : Std.Associative (fun a b : ℕ => a ||| b) := ⟨Nat.lor_assoc⟩

/-- `convertUncheckedNumbersToLotteryTicket`: or-fold of `ONE.shl(n - 1)`
over the members, no validation. -/
def convertUncheckedNumbersToLotteryTicket (numbers : TicketCombination) : ℕ :=
  numbers.fold (fun a b : ℕ => a ||| b) 0 (fun n => 1 <<< (n - 1))

/-- `convertNumbersToLotteryTicket`: throws on an invalid combination,
otherwise delegates to the unchecked conversion. -/
def convertNumbersToLotteryTicket (numbers : TicketCombination)
    (selectionSize selectionMax : ℕ) : Except String ℕ :=
  if ¬ isValidLotteryTicket numbers selectionSize selectionMax then
    .error "convertNumbersToLotteryTicket: Invalid ticket"
  else
    .ok (convertUncheckedNumbersToLotteryTicket numbers)

/-- `convertLotteryTicketToNumbers`: for each bit position
`i ∈ [0, selectionMax)` with `ticket.and(ONE.shl(i)).gt(0)`, include `i + 1`. -/
def convertLotteryTicketToNumbers (ticket : ℕ) (selectionMax : ℕ) :
    TicketCombination :=
  ((Finset.range selectionMax).filter (fun i => 0 < ticket &&& (1 <<< i))).image
    (· + 1)

/-! Bit-level characterisation of the codec. -/

theorem testBit_one_shiftLeft (k i : ℕ) :
    (1 <<< k).testBit i = true ↔ i = k := by
  rw [Nat.testBit_shiftLeft]
  simp only [Bool.and_eq_true, decide_eq_true_eq, ge_iff_le]
  constructor
  · rintro ⟨hk, hbit⟩
    have := Nat.testBit_one_eq_true_iff_self_eq_zero.mp hbit
    omega
  · rintro rfl
    exact ⟨le_refl _, by simp⟩

theorem testBit_convertUnchecked (s : TicketCombination)
    (hs : ∀ n ∈ s, 1 ≤ n) (i : ℕ) :
    (convertUncheckedNumbersToLotteryTicket s).testBit i = true ↔ (i + 1) ∈ s := by
  classical
  induction s using Finset.induction_on with
  | empty => simp [convertUncheckedNumbersToLotteryTicket, Nat.testBit_zero]
  | @insert a ha hnotmem ih =>
    have hs' : ∀ n ∈ ha, 1 ≤ n := fun n hn => hs n (Finset.mem_insert_of_mem hn)
    rw [convertUncheckedNumbersToLotteryTicket, Finset.fold_insert hnotmem]
    rw [Nat.testBit_or]
    rw [Bool.or_eq_true]
    rw [show (ha.fold (fun a b : ℕ => a ||| b) 0 fun n => 1 <<< (n - 1)) =
      convertUncheckedNumbersToLotteryTicket ha from rfl]
    rw [ih hs', testBit_one_shiftLeft]
    have h1 : 1 ≤ a := hs a (Finset.mem_insert_self a ha)
    constructor
    · rintro (h | h)
      · exact Finset.mem_insert.mpr (Or.inl (by omega))
      · exact Finset.mem_insert_of_mem h
    · intro h
      rcases Finset.mem_insert.mp h with h | h
      · exact Or.inl (by omega)
      · exact Or.inr h

theorem and_one_shiftLeft_pos (t i : ℕ) :
    0 < t &&& (1 <<< i) ↔ t.testBit i = true := by
  constructor
  · intro h
    by_contra hbit
    rw [Bool.not_eq_true] at hbit
    have hzero : t &&& (1 <<< i) = 0 := by
      apply Nat.eq_of_testBit_eq
      intro j
      rw [Nat.testBit_and, Nat.zero_testBit]
      rcases eq_or_ne j i with rfl | hne
      · simp [hbit]
      · have hfalse : (1 <<< i).testBit j = false := by
          cases hb : (1 <<< i).testBit j
          · rfl
          · exact absurd ((testBit_one_shiftLeft i j).mp hb) hne
        simp [hfalse]
    omega
  · intro h
    have : (t &&& (1 <<< i)).testBit i = true := by
      rw [Nat.testBit_and, h, (testBit_one_shiftLeft i i).mpr rfl]
      rfl
    have hne : t &&& (1 <<< i) ≠ 0 := by
      intro hz
      rw [hz, Nat.zero_testBit] at this
      exact Bool.false_ne_true this
    omega

theorem mem_convertLotteryTicketToNumbers (t selectionMax m : ℕ) :
    m ∈ convertLotteryTicketToNumbers t selectionMax ↔
      1 ≤ m ∧ m - 1 < selectionMax ∧ t.testBit (m - 1) = true := by
  unfold convertLotteryTicketToNumbers
  simp only [Finset.mem_image, Finset.mem_filter, Finset.mem_range]
  constructor
  · rintro ⟨i, ⟨hi, hbit⟩, rfl⟩
    exact ⟨by omega, by simpa using hi, by simpa using (and_one_shiftLeft_pos t i).mp hbit⟩
  · rintro ⟨h1, hlt, hbit⟩
    exact ⟨m - 1, ⟨hlt, (and_one_shiftLeft_pos t (m - 1)).mpr hbit⟩, by omega⟩

theorem decode_convertUnchecked (selectionSize selectionMax : ℕ)
    (c : TicketCombination)
    (hc : isValidLotteryTicket c selectionSize selectionMax) :
    convertLotteryTicketToNumbers (convertUncheckedNumbersToLotteryTicket c)
      selectionMax = c := by
  obtain ⟨-, hmem⟩ := hc
  ext m
  rw [mem_convertLotteryTicketToNumbers]
  constructor
  · rintro ⟨h1, hlt, hbit⟩
    have := (testBit_convertUnchecked c (fun n hn => (hmem n hn).1) (m - 1)).mp hbit
    have hm : m - 1 + 1 = m := by omega
    rwa [hm] at this
  · intro hm
    obtain ⟨h1, h2⟩ := hmem m hm
    refine ⟨h1, by omega, ?_⟩
    apply (testBit_convertUnchecked c (fun n hn => (hmem n hn).1) (m - 1)).mpr
    have hm' : m - 1 + 1 = m := by omega
    rwa [hm']

theorem convertUnchecked_decode (selectionMax : ℕ) (p : ℕ)
    (hp : ∀ i, selectionMax ≤ i → p.testBit i = false) :
    convertUncheckedNumbersToLotteryTicket
      (convertLotteryTicketToNumbers p selectionMax) = p := by
  apply Nat.eq_of_testBit_eq
  intro j
  have hone : ∀ n ∈ convertLotteryTicketToNumbers p selectionMax, 1 ≤ n := by
    intro n hn
    exact ((mem_convertLotteryTicketToNumbers p selectionMax n).mp hn).1
  rcases hbit : p.testBit j with _ | _
  · cases henc : (convertUncheckedNumbersToLotteryTicket
      (convertLotteryTicketToNumbers p selectionMax)).testBit j
    · rfl
    · exfalso
      have := (testBit_convertUnchecked _ hone j).mp henc
      obtain ⟨-, -, hb⟩ := (mem_convertLotteryTicketToNumbers p selectionMax
        (j + 1)).mp this
      simp only [Nat.add_sub_cancel] at hb
      rw [hbit] at hb
      exact Bool.false_ne_true hb
  · have hjlt : j < selectionMax := by
      by_contra hge
      have := hp j (by omega)
      rw [hbit] at this
      exact Bool.false_ne_true this.symm
    apply (testBit_convertUnchecked _ hone j).mpr
    apply (mem_convertLotteryTicketToNumbers p selectionMax (j + 1)).mpr
    exact ⟨by omega, by simpa using hjlt, by simpa using hbit⟩

/-- **C3.** The combination codec round-trips in both directions: decoding an
encoded valid combination gives the combination back, and encoding the decoding
of a packed value with no set bits at positions `≥ selectionMax` gives the
packed value back, provided the decoding has cardinality `selectionSize`. -/
theorem codec_round_trip :
    (∀ (selectionSize selectionMax : ℕ) (c : TicketCombination),
      isValidLotteryTicket c selectionSize selectionMax →
        convertNumbersToLotteryTicket c selectionSize selectionMax =
          .ok (convertUncheckedNumbersToLotteryTicket c) ∧
        convertLotteryTicketToNumbers
          (convertUncheckedNumbersToLotteryTicket c) selectionMax = c) ∧
    (∀ (selectionSize selectionMax : ℕ) (p : ℕ),
      (∀ i, selectionMax ≤ i → p.testBit i = false) →
      (convertLotteryTicketToNumbers p selectionMax).card = selectionSize →
        convertNumbersToLotteryTicket (convertLotteryTicketToNumbers p selectionMax)
          selectionSize selectionMax = .ok p) := by
  constructor
  · intro selectionSize selectionMax c hc
    refine ⟨?_, decode_convertUnchecked selectionSize selectionMax c hc⟩
    rw [convertNumbersToLotteryTicket, if_neg (by simpa using hc)]
  · intro selectionSize selectionMax p hp hcard
    have hvalid : isValidLotteryTicket (convertLotteryTicketToNumbers p selectionMax)
        selectionSize selectionMax := by
      refine ⟨hcard, ?_⟩
      intro n hn
      obtain ⟨h1, h2, -⟩ := (mem_convertLotteryTicketToNumbers p selectionMax n).mp hn
      exact ⟨h1, by omega⟩
    rw [convertNumbersToLotteryTicket, if_neg (by simpa using hvalid)]
    rw [convertUnchecked_decode selectionMax p hp]

/-- **C3 witness.** Instantiated at the spec's own scenarios:
`{1,2,3,4,5}` with `selectionSize = 5`, `selectionMax = 10` encodes to
`0x1f = 31`, and `0xab = 171` decodes and re-encodes to itself. -/
theorem codec_round_trip_witness :
    convertNumbersToLotteryTicket ({1, 2, 3, 4, 5} : TicketCombination) 5 10 =
        .ok (convertUncheckedNumbersToLotteryTicket ({1, 2, 3, 4, 5} : TicketCombination)) ∧
      convertLotteryTicketToNumbers
        (convertUncheckedNumbersToLotteryTicket ({1, 2, 3, 4, 5} : TicketCombination)) 10 =
        ({1, 2, 3, 4, 5} : TicketCombination) ∧
      convertNumbersToLotteryTicket (convertLotteryTicketToNumbers 171 10) 5 10 =
        .ok 171 := by
  have h1 := codec_round_trip.1 5 10 ({1, 2, 3, 4, 5} : TicketCombination) (by decide)
  have h2 := codec_round_trip.2 5 10 171
    (fun i hi => by
      have hlt : (171 : ℕ) < 2 ^ 10 := by norm_num
      have hle : (2 : ℕ) ^ 10 ≤ 2 ^ i := Nat.pow_le_pow_right (by norm_num) hi
      exact Nat.testBit_lt_two_pow (by omega))
    (by decide)
  exact ⟨h1.1, h1.2, h2⟩

/-- **C4.** `convertNumbersToLotteryTicket` errors exactly when
`isValidLotteryTicket` is false; validity means cardinality `selectionSize`
with members in `[1, selectionMax]`; a non-error result is the unchecked
conversion, whose bit `n - 1` is set exactly for the members `n`. -/
theorem encode_error_iff_invalid (c : TicketCombination)
    (selectionSize selectionMax : ℕ) :
    ((∃ e, convertNumbersToLotteryTicket c selectionSize selectionMax = .error e) ↔
      ¬ isValidLotteryTicket c selectionSize selectionMax) ∧
    (isValidLotteryTicket c selectionSize selectionMax ↔
      (c.card = selectionSize ∧ ∀ n ∈ c, 1 ≤ n ∧ n ≤ selectionMax)) ∧
    (∀ t, convertNumbersToLotteryTicket c selectionSize selectionMax = .ok t →
      t = convertUncheckedNumbersToLotteryTicket c ∧
        ∀ i, t.testBit i = true ↔ i + 1 ∈ c) := by
  refine ⟨?_, Iff.rfl, ?_⟩
  · unfold convertNumbersToLotteryTicket
    by_cases h : isValidLotteryTicket c selectionSize selectionMax
    · rw [if_neg (by simpa using h)]
      simp [h]
    · rw [if_pos (by simpa using h)]
      simp [h]
  · intro t ht
    unfold convertNumbersToLotteryTicket at ht
    by_cases h : isValidLotteryTicket c selectionSize selectionMax
    · rw [if_neg (by simpa using h)] at ht
      obtain rfl : convertUncheckedNumbersToLotteryTicket c = t := by
        simpa using ht
      exact ⟨rfl, fun i => testBit_convertUnchecked c (fun n hn => (h.2 n hn).1) i⟩
    · rw [if_pos (by simpa using h)] at ht
      exact absurd ht (by simp)

/-! ## Reward calculator (src/lottery/lottery.ts, `Lottery` private methods)

`BigNumber` values become `ℤ`; `BigNumber.div` truncates toward zero, which is
`Int.tdiv`. -/

namespace Lottery

def PERCENTAGE_BASE : ℤ := 100

def EXCESS_BONUS_ALLOCATION : ℤ := 50

def SAFETY_MARGIN : ℤ := 33

/-- `Lottery.calculateExcessPot`. -/
def calculateExcessPot (netProfit fixedJackpot : ℤ) : ℤ :=
  let excessPotSafePercentage := PERCENTAGE_BASE - SAFETY_MARGIN
  let safeNetProfit := (netProfit * excessPotSafePercentage).tdiv PERCENTAGE_BASE
  let excessPot := safeNetProfit - fixedJackpot
  if 0 < excessPot then excessPot else 0

/-- `Lottery.calculateMultiplier`. -/
def calculateMultiplier (excessPot ticketsSold expectedPayout : ℤ) : ℤ :=
  let bonusMulti := PERCENTAGE_BASE
  if 0 < excessPot ∧ 0 < ticketsSold then
    bonusMulti + (excessPot * EXCESS_BONUS_ALLOCATION).tdiv
      (ticketsSold * expectedPayout)
  else
    bonusMulti

/-- `Lottery.calculateReward`. -/
def calculateReward (netProfit fixedReward fixedJackpot ticketsSold : ℤ)
    (isJackpot : Bool) (expectedPayout : ℤ) : ℤ :=
  let excess := calculateExcessPot netProfit fixedJackpot
  if isJackpot then
    fixedReward + (excess * EXCESS_BONUS_ALLOCATION).tdiv PERCENTAGE_BASE
  else
    (fixedReward * calculateMultiplier excess ticketsSold expectedPayout).tdiv
      PERCENTAGE_BASE

end Lottery

/-- The reward formula exactly as the spec's §4.3 words it; compared with the
embedded `Lottery.calculateReward`. -/
def calculateRewardSpec (netProfit fixedReward fixedJackpot ticketsSold
    expectedPayout : ℤ) (isJackpotTier : Bool) : ℤ :=
  let safeNetProfit := (netProfit * 67).tdiv 100
  let excessPot := max 0 (safeNetProfit - fixedJackpot)
  if isJackpotTier then
    fixedReward + (excessPot * 50).tdiv 100
  else
    let bonusMultiplier := 100 +
      (if 0 < excessPot ∧ 0 < ticketsSold then
        (excessPot * 50).tdiv (ticketsSold * expectedPayout)
      else 0)
    (fixedReward * bonusMultiplier).tdiv 100

/-- **C1.** For all non-negative inputs, `Lottery.calculateReward` equals the
spec's reference formula (all divisions truncating toward zero); in particular
`netProfit = 1000`, `fixedJackpot = 100`, `fixedReward = 200`, jackpot tier,
gives `485`. -/
theorem calculateReward_matches_spec (netProfit fixedReward fixedJackpot
    ticketsSold expectedPayout : ℕ) (isJackpotTier : Bool) :
    Lottery.calculateReward netProfit fixedReward fixedJackpot ticketsSold
        isJackpotTier expectedPayout =
      calculateRewardSpec netProfit fixedReward fixedJackpot ticketsSold
        expectedPayout isJackpotTier ∧
    Lottery.calculateReward 1000 200 100 0 true 0 = 485 := by
  constructor
  · have hexcess : ∀ np fj : ℤ,
        Lottery.calculateExcessPot np fj = max 0 ((np * 67).tdiv 100 - fj) := by
      intro np fj
      unfold Lottery.calculateExcessPot Lottery.PERCENTAGE_BASE Lottery.SAFETY_MARGIN
      simp only [show (100 : ℤ) - 33 = 67 from by norm_num]
      generalize (np * 67).tdiv 100 - fj = x
      rcases lt_or_le 0 x with h | h
      · rw [if_pos h, max_eq_right h.le]
      · rw [if_neg (not_lt.mpr h), max_eq_left h]
    have hmulti : ∀ e ts ep : ℤ,
        Lottery.calculateMultiplier e ts ep =
          100 + (if 0 < e ∧ 0 < ts then (e * 50).tdiv (ts * ep) else 0) := by
      intro e ts ep
      unfold Lottery.calculateMultiplier Lottery.PERCENTAGE_BASE
        Lottery.EXCESS_BONUS_ALLOCATION
      split
      · rfl
      · norm_num
    unfold Lottery.calculateReward calculateRewardSpec Lottery.PERCENTAGE_BASE
      Lottery.EXCESS_BONUS_ALLOCATION
    simp only [hexcess, hmulti]
  · decide

theorem tdiv_le_tdiv_of_le {a b c : ℤ} (ha : 0 ≤ a) (hab : a ≤ b) (hc : 0 ≤ c) :
    a.tdiv c ≤ b.tdiv c := by
  rcases eq_or_lt_of_le hc with rfl | hc'
  · simp
  · rw [Int.tdiv_eq_ediv ha hc, Int.tdiv_eq_ediv (ha.trans hab) hc]
    exact Int.ediv_le_ediv hc' hab

theorem calculateExcessPot_nonneg (np fj : ℤ) :
    0 ≤ Lottery.calculateExcessPot np fj := by
  unfold Lottery.calculateExcessPot
  dsimp only
  split
  · omega
  · exact le_refl 0

theorem calculateExcessPot_mono (np₁ np₂ fj : ℤ) (h0 : 0 ≤ np₁)
    (h : np₁ ≤ np₂) :
    Lottery.calculateExcessPot np₁ fj ≤ Lottery.calculateExcessPot np₂ fj := by
  unfold Lottery.calculateExcessPot Lottery.PERCENTAGE_BASE Lottery.SAFETY_MARGIN
  have hsafe : (np₁ * (100 - 33)).tdiv 100 ≤ (np₂ * (100 - 33)).tdiv 100 :=
    tdiv_le_tdiv_of_le (mul_nonneg h0 (by norm_num))
      (by have h67 : (0 : ℤ) ≤ 100 - 33 := by norm_num
          exact mul_le_mul_of_nonneg_right h h67)
      (by norm_num)
  dsimp only
  split <;> split <;> omega

theorem calculateMultiplier_ge (e ts ep : ℤ) (he : 0 ≤ e) (hts : 0 ≤ ts)
    (hep : 0 ≤ ep) : 100 ≤ Lottery.calculateMultiplier e ts ep := by
  unfold Lottery.calculateMultiplier Lottery.PERCENTAGE_BASE
    Lottery.EXCESS_BONUS_ALLOCATION
  dsimp only
  split
  · have : (0 : ℤ) ≤ (e * 50).tdiv (ts * ep) :=
      Int.tdiv_nonneg (mul_nonneg he (by norm_num)) (mul_nonneg hts hep)
    omega
  · exact le_refl 100

theorem calculateMultiplier_mono (e₁ e₂ ts ep : ℤ) (h0 : 0 ≤ e₁)
    (h : e₁ ≤ e₂) (hts : 0 ≤ ts) (hep : 0 ≤ ep) :
    Lottery.calculateMultiplier e₁ ts ep ≤ Lottery.calculateMultiplier e₂ ts ep := by
  unfold Lottery.calculateMultiplier Lottery.PERCENTAGE_BASE
    Lottery.EXCESS_BONUS_ALLOCATION
  dsimp only
  split
  · rename_i h₁
    rw [if_pos ⟨lt_of_lt_of_le h₁.1 h, h₁.2⟩]
    have : (e₁ * 50).tdiv (ts * ep) ≤ (e₂ * 50).tdiv (ts * ep) :=
      tdiv_le_tdiv_of_le (mul_nonneg h0 (by norm_num))
        (mul_le_mul_of_nonneg_right h (by norm_num)) (mul_nonneg hts hep)
    omega
  · split
    · rename_i h₂
      have : (0 : ℤ) ≤ (e₂ * 50).tdiv (ts * ep) :=
        Int.tdiv_nonneg (mul_nonneg (h0.trans h) (by norm_num)) (mul_nonneg hts hep)
      omega
    · exact le_refl _

/-- **C6.** With the tier inputs fixed and non-negative, `calculateReward` is
monotone in `netProfit`; the jackpot-tier reward is always at least
`fixedReward`; and a non-jackpot reward with zero `ticketsSold` or zero
computed excess pot equals `fixedReward` exactly. -/
theorem calculateReward_monotonicity (fixedReward fixedJackpot ticketsSold
    expectedPayout : ℕ) :
    (∀ (np₁ np₂ : ℕ) (isJackpot : Bool), np₁ ≤ np₂ →
      Lottery.calculateReward np₁ fixedReward fixedJackpot ticketsSold isJackpot
          expectedPayout ≤
        Lottery.calculateReward np₂ fixedReward fixedJackpot ticketsSold isJackpot
          expectedPayout) ∧
    (∀ np : ℕ,
      (fixedReward : ℤ) ≤
        Lottery.calculateReward np fixedReward fixedJackpot ticketsSold true
          expectedPayout) ∧
    (∀ np : ℕ, ticketsSold = 0 ∨ Lottery.calculateExcessPot np fixedJackpot = 0 →
      Lottery.calculateReward np fixedReward fixedJackpot ticketsSold false
        expectedPayout = fixedReward) := by
  refine ⟨?_, ?_, ?_⟩
  · intro np₁ np₂ isJackpot h
    have hmono := calculateExcessPot_mono (np₁ : ℤ) (np₂ : ℤ) (fixedJackpot : ℤ)
      (Int.ofNat_nonneg np₁) (by exact_mod_cast h)
    have hnn := calculateExcessPot_nonneg (np₁ : ℤ) (fixedJackpot : ℤ)
    unfold Lottery.calculateReward Lottery.PERCENTAGE_BASE
      Lottery.EXCESS_BONUS_ALLOCATION
    cases isJackpot
    · simp only [Bool.false_eq_true, if_false]
      have hm₁ := calculateMultiplier_ge (Lottery.calculateExcessPot np₁ fixedJackpot)
        ticketsSold expectedPayout hnn (Int.ofNat_nonneg _) (Int.ofNat_nonneg _)
      have hm := calculateMultiplier_mono
        (Lottery.calculateExcessPot np₁ fixedJackpot)
        (Lottery.calculateExcessPot np₂ fixedJackpot)
        (ticketsSold : ℤ) (expectedPayout : ℤ)
        hnn hmono (Int.ofNat_nonneg _) (Int.ofNat_nonneg _)
      apply tdiv_le_tdiv_of_le _ _ (by norm_num)
      · exact mul_nonneg (Int.ofNat_nonneg _) (le_trans (by norm_num) hm₁)
      · exact mul_le_mul_of_nonneg_left hm (Int.ofNat_nonneg _)
    · simp only [if_true]
      have : (Lottery.calculateExcessPot np₁ fixedJackpot * 50).tdiv 100 ≤
          (Lottery.calculateExcessPot np₂ fixedJackpot * 50).tdiv 100 :=
        tdiv_le_tdiv_of_le (mul_nonneg hnn (by norm_num))
          (mul_le_mul_of_nonneg_right hmono (by norm_num)) (by norm_num)
      omega
  · intro np
    unfold Lottery.calculateReward Lottery.PERCENTAGE_BASE
      Lottery.EXCESS_BONUS_ALLOCATION
    simp only [if_true]
    have hnn := calculateExcessPot_nonneg (np : ℤ) (fixedJackpot : ℤ)
    have : (0 : ℤ) ≤ (Lottery.calculateExcessPot np fixedJackpot * 50).tdiv 100 :=
      Int.tdiv_nonneg (mul_nonneg hnn (by norm_num)) (by norm_num)
    omega
  · intro np hzero
    unfold Lottery.calculateReward Lottery.PERCENTAGE_BASE
      Lottery.EXCESS_BONUS_ALLOCATION
    simp only [Bool.false_eq_true, if_false]
    have hmul : Lottery.calculateMultiplier
        (Lottery.calculateExcessPot np fixedJackpot) ticketsSold expectedPayout =
        100 := by
      unfold Lottery.calculateMultiplier Lottery.PERCENTAGE_BASE
        Lottery.EXCESS_BONUS_ALLOCATION
      rcases hzero with h | h
      · rw [if_neg]
        rintro ⟨-, hts⟩
        rw [h] at hts
        exact lt_irrefl _ (by exact_mod_cast hts)
      · rw [if_neg]
        rintro ⟨he, -⟩
        rw [h] at he
        exact lt_irrefl _ he
    rw [hmul]
    exact Int.mul_tdiv_cancel _ (by norm_num)

/-- **C6 witness.** The three parts of `calculateReward_monotonicity`
instantiated at concrete inputs. -/
theorem calculateReward_monotonicity_witness :
    Lottery.calculateReward 1000 200 100 3 true 2 ≤
        Lottery.calculateReward 2000 200 100 3 true 2 ∧
      (200 : ℤ) ≤ Lottery.calculateReward 1000 200 100 3 true 2 ∧
      Lottery.calculateReward 1000 200 100 0 false 2 = 200 :=
  ⟨(calculateReward_monotonicity 200 100 3 2).1 1000 2000 true (by norm_num),
   (calculateReward_monotonicity 200 100 3 2).2.1 1000,
   (calculateReward_monotonicity 200 100 0 2).2.2 1000 (Or.inl rfl)⟩

/-! ## Ticket lifecycle (`LotteryTicketHistory` in src/lottery/lottery.ts)

The file holds two revisions of the class.  The later revision (lines
837-929) stores a nullable combination and a `lotteryMinWinningTier` and is
embedded as a structure; the earlier revision (lines 56-153) of `getStatus`
is embedded as the standalone `getStatusV1` over the same inputs. -/

inductive LotteryTicketStatus where
  | active
  | unclaimable
  | unclaimed
  | claimed
  | expired
deriving DecidableEq, Repr

/-- The later revision of `LotteryTicketHistory` (fields only; `matchedNumbers`
is what its constructor computed). -/
structure LotteryTicketHistory where
  ticketId : ℕ
  draw : ℕ
  combination : Option (Finset ℕ)
  matchedNumbers : Option (Finset ℕ)
  isClaimed : Bool
  calculateReward : ℕ → ℤ
  lotteryMinWinningTier : ℕ

namespace LotteryTicketHistory

def DRAWS_PER_YEAR : ℕ := 52

/-- The later revision's constructor: `matchedNumbers` is the intersection of
the ticket's combination with the draw's winning combination, `null` unless
both are present. -/
def make (ticketId draw : ℕ) (combination : Option (Finset ℕ))
    (isClaimed : Bool) (calculateReward : ℕ → ℤ)
    (drawWinningCombination : Option (Finset ℕ))
    (lotteryMinWinningTier : ℕ) : LotteryTicketHistory :=
  { ticketId := ticketId
    draw := draw
    combination := combination
    matchedNumbers :=
      match drawWinningCombination, combination with
      | some w, some c => some (c.filter (fun number => number ∈ w))
      | _, _ => none
    isClaimed := isClaimed
    calculateReward := calculateReward
    lotteryMinWinningTier := lotteryMinWinningTier }

/-- `winTier` getter: `matchedNumbers?.size ?? null`. -/
def winTier (h : LotteryTicketHistory) : Option ℕ :=
  h.matchedNumbers.map Finset.card

/-- `isJackpotWinningTicket` getter (later revision):
`winTier !== null && combination !== null && winTier === combination.size`. -/
def isJackpotWinningTicket (h : LotteryTicketHistory) : Bool :=
  match h.winTier, h.combination with
  | some t, some c => t == c.card
  | _, _ => false

/-- `reward` getter: `winTier ? calculateReward(winTier) : ZERO` (JavaScript
truthiness: `null` and `0` are falsy). -/
def reward (h : LotteryTicketHistory) : ℤ :=
  match h.winTier with
  | some t => if t ≠ 0 then h.calculateReward t else 0
  | none => 0

/-- `getStatus` — the later revision (lines 910-928). -/
def getStatus (h : LotteryTicketHistory) (currentDraw : ℕ) :
    LotteryTicketStatus :=
  if currentDraw ≤ h.draw ∨ h.winTier = none then .active
  else if h.isClaimed then .claimed
  else if h.winTier.getD 0 < h.lotteryMinWinningTier then .unclaimable
  else if h.draw + DRAWS_PER_YEAR < currentDraw then .expired
  else .unclaimed

end LotteryTicketHistory

/-- `getStatus` — the earlier revision (lines 134-152), over the values it
reads: the ticket's draw, its win tier, its claim flag, the current draw. -/
def getStatusV1 (draw : ℕ) (winTier : Option ℕ) (isClaimed : Bool)
    (currentDraw : ℕ) : LotteryTicketStatus :=
  if currentDraw ≤ draw then .active
  else if isClaimed then .claimed
  else if draw + LotteryTicketHistory.DRAWS_PER_YEAR < currentDraw then .expired
  else if winTier ≠ none ∧ 0 < winTier.getD 0 then .unclaimed
  else .unclaimable

/-- The spec's §4.4 ordered transition rule, word for word; compared with the
embedded `LotteryTicketHistory.getStatus`. -/
def getStatusRule (draw currentDraw : ℕ) (isClaimed : Bool)
    (winTier : Option ℕ) (minWinningTier : ℕ) : LotteryTicketStatus :=
  if currentDraw ≤ draw ∨ winTier = none then .active
  else if isClaimed then .claimed
  else if winTier.getD 0 < minWinningTier then .unclaimable
  else if draw + 52 < currentDraw then .expired
  else .unclaimed

/-- **C2.** `LotteryTicketHistory.getStatus` computes exactly the spec's
ordered five-clause rule, for every ticket history and current draw; in
particular `draw = 10`, `currentDraw = 65`, unclaimed, `winTier = 4`,
`minWinningTier = 3` gives `expired`. -/
theorem getStatus_matches_rule :
    (∀ (h : LotteryTicketHistory) (currentDraw : ℕ),
      h.getStatus currentDraw =
        getStatusRule h.draw currentDraw h.isClaimed h.winTier
          h.lotteryMinWinningTier) ∧
    LotteryTicketHistory.getStatus
        ⟨0, 10, none, some {1, 2, 3, 4}, false, fun _ => 0, 3⟩ 65 =
      .expired := by
  constructor
  · intro h currentDraw
    rfl
  · decide

/-- **C7.** The `reward` getter is zero when the win tier is null or zero and
otherwise applies the stored reward calculator to the win tier; and
`isJackpotWinningTicket` holds exactly when the win tier is known and equals
the full combination's size. -/
theorem reward_and_jackpot_getters (h : LotteryTicketHistory) :
    (h.winTier = none ∨ h.winTier = some 0 → h.reward = 0) ∧
    (∀ t, h.winTier = some t → 0 < t → h.reward = h.calculateReward t) ∧
    (h.isJackpotWinningTicket = true ↔
      ∃ t c, h.winTier = some t ∧ h.combination = some c ∧ t = c.card) := by
  refine ⟨?_, ?_, ?_⟩
  · rintro (hnone | hzero)
    · rw [LotteryTicketHistory.reward, hnone]
    · rw [LotteryTicketHistory.reward, hzero]
      simp
  · intro t ht hpos
    rw [LotteryTicketHistory.reward, ht]
    show (if t ≠ 0 then h.calculateReward t else 0) = h.calculateReward t
    exact if_pos (by omega)
  · unfold LotteryTicketHistory.isJackpotWinningTicket
    rcases hw : h.winTier with _ | t <;> rcases hc : h.combination with _ | c
    · simp
    · simp
    · simp
    · simp only [beq_iff_eq]
      constructor
      · intro ht
        exact ⟨t, c, rfl, rfl, ht⟩
      · rintro ⟨t', c', ht', hc', heq⟩
        have ht2 : t = t' := by injection ht'
        have hc2 : c = c' := by injection hc'
        rw [ht2, hc2]
        exact heq

/-- **C7 witness.** The getters evaluated on a concrete finalized, winning
history built by the constructor. -/
theorem reward_and_jackpot_getters_witness :
    (LotteryTicketHistory.make 7 3 (some {1, 2}) false (fun t => 10 * t)
        (some {2, 5}) 1).reward =
      (LotteryTicketHistory.make 7 3 (some {1, 2}) false (fun t => 10 * t)
        (some {2, 5}) 1).calculateReward 1 := by
  apply (reward_and_jackpot_getters _).2.1 1
  · decide
  · omega

/-- **C10 counterexample.** The two `getStatus` revisions disagree: a
finalized, unclaimed ticket with `draw = 10`, `currentDraw = 65`,
`winTier = 2`, `minWinningTier = 3` is `expired` under the earlier revision
but `unclaimable` under the later one. -/
theorem getStatus_revisions_differ :
    getStatusV1 10 (some 2) false 65 = .expired ∧
      LotteryTicketHistory.getStatus
          ⟨0, 10, none, some {1, 2}, false, fun _ => 0, 3⟩ 65 =
        .unclaimable := by
  constructor
  · decide
  · decide

/-- **C10 (amended).** The two revisions agree whenever the ticket's draw has
not yet been reached (`draw ≥ currentDraw`), or the win tier is known and the
ticket is claimed or its win tier is at least `minWinningTier` (with
`minWinningTier ≥ 1`); they differ in general. -/
theorem getStatus_revisions_agree (h : LotteryTicketHistory) (currentDraw : ℕ)
    (hmin : 1 ≤ h.lotteryMinWinningTier)
    (hcase : currentDraw ≤ h.draw ∨
      (h.winTier ≠ none ∧
        (h.isClaimed = true ∨ h.lotteryMinWinningTier ≤ h.winTier.getD 0))) :
    getStatusV1 h.draw h.winTier h.isClaimed currentDraw =
      h.getStatus currentDraw := by
  obtain ⟨tid, draw, comb, matched, claimed, calcR, minTier⟩ := h
  simp only [LotteryTicketHistory.winTier] at hcase hmin ⊢
  unfold getStatusV1 LotteryTicketHistory.getStatus LotteryTicketHistory.winTier
  rcases matched with _ | m
  · have hd : currentDraw ≤ draw := by
      rcases hcase with hd | ⟨hne, -⟩
      · exact hd
      · exact absurd rfl hne
    simp [hd]
  · simp only [Option.map_some', Option.getD_some, ne_eq, Option.some_ne_none,
      not_false_iff, true_and, or_false] at hcase ⊢
    rcases le_or_lt currentDraw draw with hd | hd
    · simp [hd]
    · rw [if_neg (show ¬ currentDraw ≤ draw by omega)]
      rcases claimed with _ | _
      · simp only [Bool.false_eq_true, if_false]
        have htier : minTier ≤ m.card := by
          rcases hcase with hd' | hcl | ht
          · omega
          · exact absurd hcl (by simp)
          · exact ht
        rw [if_neg (show ¬ m.card < minTier by omega)]
        rcases lt_or_le (draw + LotteryTicketHistory.DRAWS_PER_YEAR)
          currentDraw with he | he
        · rw [if_pos he]
          rw [if_neg (show ¬ currentDraw ≤ draw by omega), if_pos he]
        · rw [if_neg (show ¬ draw + LotteryTicketHistory.DRAWS_PER_YEAR <
            currentDraw by omega)]
          rw [if_pos (show 0 < m.card by omega)]
          rw [if_neg (show ¬ currentDraw ≤ draw by omega)]
          rw [if_neg (show ¬ draw + LotteryTicketHistory.DRAWS_PER_YEAR <
            currentDraw by omega)]
      · simp [show ¬ currentDraw ≤ draw by omega]

/-- **C10 amended witness.** The agreement theorem applied to a concrete
finalized winning ticket: both revisions give `expired`. -/
theorem getStatus_revisions_agree_witness :
    getStatusV1 10 (some 4) false 65 =
      LotteryTicketHistory.getStatus
        ⟨0, 10, none, some {1, 2, 3, 4}, false, fun _ => 0, 3⟩ 65 :=
  getStatus_revisions_agree
    ⟨0, 10, none, some {1, 2, 3, 4}, false, fun _ => 0, 3⟩ 65 (by decide)
    (Or.inr ⟨by decide, Or.inr (by decide)⟩)

/-! ## Tier-indexed map conversion and the win-amount query
(src/lottery/lottery.ts, `Lottery.convertArrayToWinTierMap` and
`Lottery.getWinAmount`)

The JavaScript object keyed by win tier becomes an association list
`List (ℤ × β)` built in the `reduce` order; tiers are `ℤ` because the
starting index `selectionSize - array.length + 1` may be non-positive. -/

namespace Lottery

/-- `Lottery.convertArrayToWinTierMap`: `reduce` over the array with its index,
skipping tiers below `minWinningTier`. -/
def convertArrayToWinTierMap {α β : Type} (selectionSize minWinningTier : ℤ)
    (array : List α) (mapFn : α → β) : List (ℤ × β) :=
  let startingIndex : ℤ := selectionSize - array.length + 1
  array.enum.foldl
    (fun accumulator ic =>
      let winTier := startingIndex + ic.1
      if winTier < minWinningTier then accumulator
      else accumulator ++ [(winTier, mapFn ic.2)])
    []

/-- `Lottery.getWinAmount`: rejects a win tier outside
`[minWinningTier, selectionSize]` before querying; the indexing collaborator's
reply for the draw (its `prizesPerTier`, or `none` when the draw or the field
is absent) is passed in as `fetchedPrizesPerTier`. -/
def getWinAmount {α β : Type} [BEq ℤ] (minWinningTier selectionSize winTier : ℤ)
    (fetchedPrizesPerTier : Option (List α)) (bigNumberFrom : α → β) :
    Except String (Option β) :=
  if winTier < minWinningTier ∨ selectionSize < winTier then
    .error "Win tier must be out of range"
  else
    match fetchedPrizesPerTier with
    | none => .ok none
    | some prizesPerTier =>
        .ok ((convertArrayToWinTierMap selectionSize minWinningTier prizesPerTier
          bigNumberFrom).lookup winTier)

end Lottery

theorem foldl_tierMap_mem {α β : Type} (minWinningTier : ℤ) (mapFn : α → β)
    (b : ℤ) :
    ∀ (l : List α) (n : ℕ) (acc : List (ℤ × β)) (p : ℤ × β),
      p ∈ (l.enumFrom n).foldl
          (fun accumulator ic =>
            let winTier := b + ic.1
            if winTier < minWinningTier then accumulator
            else accumulator ++ [(winTier, mapFn ic.2)])
          acc ↔
        p ∈ acc ∨ ∃ i : Fin l.length, p.1 = b + (n + i.1) ∧
          minWinningTier ≤ p.1 ∧ p.2 = mapFn (l.get i) := by
  intro l
  induction l with
  | nil =>
    intro n acc p
    simp
  | cons a l ih =>
    intro n acc p
    rw [List.enumFrom_cons, List.foldl_cons, ih]
    constructor
    · rintro (hacc | ⟨i, h1, h2, h3⟩)
      · by_cases hskip : b + (n : ℤ) < minWinningTier
        · rw [if_pos hskip] at hacc
          exact Or.inl hacc
        · rw [if_neg hskip, List.mem_append] at hacc
          rcases hacc with hacc | hp
          · exact Or.inl hacc
          · obtain rfl : p = (b + (n : ℤ), mapFn a) := by simp at hp; exact hp
            exact Or.inr ⟨⟨0, by simp⟩, by simp, by omega, by simp⟩
      · refine Or.inr ⟨⟨i.1 + 1, by simp⟩, ?_, h2, by simpa using h3⟩
        push_cast at h1 ⊢
        omega
    · rintro (hacc | ⟨i, h1, h2, h3⟩)
      · left
        by_cases hskip : b + (n : ℤ) < minWinningTier
        · rw [if_pos hskip]
          exact hacc
        · rw [if_neg hskip, List.mem_append]
          exact Or.inl hacc
      · rcases i with ⟨_ | j, hj⟩
        · left
          simp only [List.get_eq_getElem, List.getElem_cons_zero] at h3
          simp only [Nat.cast_zero, add_zero] at h1
          rw [if_neg (by omega), List.mem_append]
          right
          simp only [List.mem_singleton]
          obtain ⟨p1, p2⟩ := p
          simp only at h1 h3
          rw [h1, h3]
        · right
          simp only [List.length_cons] at hj
          simp only [Fin.val_mk] at h1
          refine ⟨⟨j, by omega⟩, ?_, h2, by simpa using h3⟩
          push_cast at h1 ⊢
          omega

/-- **C5.** `convertArrayToWinTierMap` yields exactly the entries
`(base + i) ↦ mapFn (array[i])` with `base = selectionSize - array.length + 1`,
restricted to tiers `≥ minWinningTier`, for every array, transform and
parameters; the empty array yields the empty map. -/
theorem convertArrayToWinTierMap_spec {α β : Type}
    (selectionSize minWinningTier : ℤ) (array : List α) (mapFn : α → β) :
    (∀ (k : ℤ) (v : β),
      (k, v) ∈ Lottery.convertArrayToWinTierMap selectionSize minWinningTier
          array mapFn ↔
        ∃ i : Fin array.length,
          k = selectionSize - array.length + 1 + i.1 ∧
          minWinningTier ≤ k ∧ v = mapFn (array.get i)) ∧
    Lottery.convertArrayToWinTierMap selectionSize minWinningTier
      ([] : List α) mapFn = [] := by
  constructor
  · intro k v
    unfold Lottery.convertArrayToWinTierMap
    rw [show array.enum = array.enumFrom 0 from rfl]
    rw [foldl_tierMap_mem minWinningTier mapFn (selectionSize - array.length + 1)
      array 0 [] (k, v)]
    simp
  · rfl

/-- **C8.** `getWinAmount` errors exactly when the requested tier lies outside
`[minWinningTier, selectionSize]`, and an out-of-range tier is rejected before
the indexing collaborator is consulted: the result is then independent of the
collaborator's reply. -/
theorem getWinAmount_tier_range {α β : Type}
    (minWinningTier selectionSize winTier : ℤ) :
    (∀ (fetched : Option (List α)) (bigNumberFrom : α → β),
      (∃ e, Lottery.getWinAmount minWinningTier selectionSize winTier fetched
          bigNumberFrom = .error e) ↔
        (winTier < minWinningTier ∨ selectionSize < winTier)) ∧
    ((winTier < minWinningTier ∨ selectionSize < winTier) →
      ∀ (fetched₁ fetched₂ : Option (List α))
        (bigNumberFrom₁ bigNumberFrom₂ : α → β),
        Lottery.getWinAmount minWinningTier selectionSize winTier fetched₁
            bigNumberFrom₁ =
          Lottery.getWinAmount minWinningTier selectionSize winTier fetched₂
            bigNumberFrom₂) := by
  constructor
  · intro fetched bigNumberFrom
    unfold Lottery.getWinAmount
    by_cases hrange : winTier < minWinningTier ∨ selectionSize < winTier
    · rw [if_pos hrange]
      exact ⟨fun _ => hrange, fun _ => ⟨_, rfl⟩⟩
    · rw [if_neg hrange]
      refine ⟨?_, fun h => absurd h hrange⟩
      rintro ⟨e, he⟩
      rcases fetched with _ | prizes
      · exact absurd he (by simp)
      · exact absurd he (by simp)
  · intro hrange fetched₁ fetched₂ f₁ f₂
    unfold Lottery.getWinAmount
    rw [if_pos hrange, if_pos hrange]

/-- **C8 witness.** A tier above `selectionSize` is rejected regardless of the
collaborator's reply, and yields an error. -/
theorem getWinAmount_tier_range_witness :
    (∃ e, Lottery.getWinAmount 3 7 8 (some ([10, 20] : List ℕ)) (fun n => n) =
      .error e) ∧
    Lottery.getWinAmount 3 7 8 (some ([10, 20] : List ℕ)) (fun n => n) =
      Lottery.getWinAmount 3 7 8 (none : Option (List ℕ)) (fun n => n) :=
  ⟨(getWinAmount_tier_range 3 7 8).1 (some [10, 20]) (fun n => n) |>.mpr
      (by norm_num),
   (getWinAmount_tier_range 3 7 8).2 (by norm_num) (some [10, 20]) none
      (fun n => n) (fun n => n)⟩

/-! ## Random ticket generation (src/utils/ticket.ts)

`Math.floor(Math.random() * max)` is modelled by reducing an arbitrary stream
of natural numbers modulo `max`, giving a value in `[0, max)` for `max ≥ 1`;
the unbounded `while` loop gets an explicit fuel, `none` meaning the loop has
not terminated within the fuel. -/

/-- `getRandomInt(max)` applied to the `k`-th draw of the random stream. -/
def getRandomInt (max r : ℕ) : ℕ := r % max

/-- The `while (numbers.size < selectionSize)` loop of `generateRandomTicket`,
adding `getRandomInt(selectionMax) + 1` each iteration. -/
def generateRandomTicketLoop (selectionSize selectionMax : ℕ) (rand : ℕ → ℕ) :
    ℕ → ℕ → Finset ℕ → Option (Finset ℕ)
  | fuel, k, numbers =>
    if numbers.card < selectionSize then
      match fuel with
      | 0 => none
      | fuel' + 1 =>
        generateRandomTicketLoop selectionSize selectionMax rand fuel' (k + 1)
          (insert (getRandomInt selectionMax (rand k) + 1) numbers)
    else
      some numbers

/-- `generateRandomTicket(selectionSize, selectionMax)`. -/
def generateRandomTicket (selectionSize selectionMax : ℕ) (rand : ℕ → ℕ)
    (fuel : ℕ) : Option (Finset ℕ) :=
  generateRandomTicketLoop selectionSize selectionMax rand fuel 0 ∅

/-- The loop body of the utility `generateRandomTickets`: one
`generateRandomTicket(selectionMax, selectionSize)` call — the arguments in
THAT order, as in the source — pushed per index. -/
def generateRandomTicketsGo (selectionSize selectionMax : ℕ)
    (rand : ℕ → ℕ → ℕ) (fuel : ℕ) : List ℕ → Option (List (Finset ℕ))
  | [] => some []
  | i :: rest =>
    match generateRandomTicket selectionMax selectionSize (rand i) fuel with
    | none => none
    | some t =>
      (generateRandomTicketsGo selectionSize selectionMax rand fuel rest).map
        (fun ts => t :: ts)

/-- The utility `generateRandomTickets(count, selectionSize, selectionMax)`. -/
def generateRandomTickets (count selectionSize selectionMax : ℕ)
    (rand : ℕ → ℕ → ℕ) (fuel : ℕ) : Option (List (Finset ℕ)) :=
  generateRandomTicketsGo selectionSize selectionMax rand fuel
    (List.range count)

namespace Lottery

/-- `Lottery.generateRandomTickets(count)`: calls the utility as
`generateRandomTickets(count, this.selectionMax, this.selectionSize)` — again
in THAT order, as in the source. -/
def generateRandomTickets (selectionSize selectionMax count : ℕ)
    (rand : ℕ → ℕ → ℕ) (fuel : ℕ) : Option (List (Finset ℕ)) :=
  WenwinSdk.generateRandomTickets count selectionMax selectionSize rand fuel

end Lottery

theorem generateRandomTicketLoop_stuck (rand : ℕ → ℕ) :
    ∀ (fuel k : ℕ) (s : Finset ℕ), (∀ n ∈ s, n = 1 ∨ n = 2) →
      generateRandomTicketLoop 5 2 rand fuel k s = none := by
  intro fuel
  induction fuel with
  | zero =>
    intro k s hs
    rw [generateRandomTicketLoop]
    rw [if_pos]
    have hsub : s ⊆ {1, 2} := by
      intro n hn
      rcases hs n hn with rfl | rfl <;> simp
    have hcard := Finset.card_le_card hsub
    have htwo : ({1, 2} : Finset ℕ).card = 2 := by decide
    omega
  | succ fuel ih =>
    intro k s hs
    rw [generateRandomTicketLoop]
    rw [if_pos]
    · apply ih
      intro n hn
      rcases Finset.mem_insert.mp hn with rfl | hn
      · have : rand k % 2 < 2 := Nat.mod_lt _ (by omega)
        unfold getRandomInt
        omega
      · exact hs n hn
    · have hsub : s ⊆ {1, 2} := by
        intro n hn
        rcases hs n hn with rfl | rfl <;> simp
      have hcard := Finset.card_le_card hsub
      have htwo : ({1, 2} : Finset ℕ).card = 2 := by decide
      omega

theorem generateRandomTicketLoop_sound (selectionSize selectionMax : ℕ)
    (hmax : 1 ≤ selectionMax) (rand : ℕ → ℕ) :
    ∀ (fuel k : ℕ) (s : Finset ℕ), s.card ≤ selectionSize →
      (∀ n ∈ s, 1 ≤ n ∧ n ≤ selectionMax) →
      ∀ t, generateRandomTicketLoop selectionSize selectionMax rand fuel k s =
          some t →
        isValidLotteryTicket t selectionSize selectionMax := by
  intro fuel
  induction fuel with
  | zero =>
    intro k s hcard hmem t ht
    rw [generateRandomTicketLoop] at ht
    by_cases hlt : s.card < selectionSize
    · rw [if_pos hlt] at ht
      exact absurd ht (by simp)
    · rw [if_neg hlt] at ht
      obtain rfl : s = t := by simpa using ht
      exact ⟨by omega, hmem⟩
  | succ fuel ih =>
    intro k s hcard hmem t ht
    rw [generateRandomTicketLoop] at ht
    by_cases hlt : s.card < selectionSize
    · rw [if_pos hlt] at ht
      refine ih (k + 1) _ ?_ ?_ t ht
      · have := Finset.card_insert_le (getRandomInt selectionMax (rand k) + 1) s
        omega
      · intro n hn
        rcases Finset.mem_insert.mp hn with rfl | hn
        · have : rand k % selectionMax < selectionMax := Nat.mod_lt _ (by omega)
          unfold getRandomInt
          omega
        · exact hmem n hn
    · rw [if_neg hlt] at ht
      obtain rfl : s = t := by simpa using ht
      exact ⟨by omega, hmem⟩

/-- **C9.** Refuted on the utility, confirmed on the facade.  The utility
`generateRandomTickets(1, 2, 5)` never returns (its swapped inner call asks
for 5 distinct numbers from `[1, 2]`), for every random stream and every
fuel; `Lottery.generateRandomTickets`, whose call swaps the arguments back,
returns only combinations valid for the lottery's own `selectionSize` and
`selectionMax` whenever it returns at all. -/
theorem generateRandomTickets_swapped_arguments :
    (∀ (rand : ℕ → ℕ → ℕ) (fuel : ℕ),
      generateRandomTickets 1 2 5 rand fuel = none) ∧
    (∀ (selectionSize selectionMax count : ℕ) (rand : ℕ → ℕ → ℕ) (fuel : ℕ)
      (tickets : List (Finset ℕ)),
      1 ≤ selectionSize → selectionSize ≤ selectionMax →
      Lottery.generateRandomTickets selectionSize selectionMax count rand fuel =
        some tickets →
      ∀ t ∈ tickets, isValidLotteryTicket t selectionSize selectionMax) := by
  constructor
  · intro rand fuel
    have hinner : generateRandomTicket 5 2 (rand 0) fuel = none := by
      unfold generateRandomTicket
      exact generateRandomTicketLoop_stuck (rand 0) fuel 0 ∅ (by simp)
    unfold generateRandomTickets
    rw [show List.range 1 = [0] from rfl]
    rw [generateRandomTicketsGo, hinner]
  · intro selectionSize selectionMax count rand fuel tickets hsize hle hsome
    unfold Lottery.generateRandomTickets generateRandomTickets at hsome
    revert tickets
    induction List.range count with
    | nil =>
      intro tickets hsome t ht
      obtain rfl : [] = tickets := by
        simpa [generateRandomTicketsGo] using hsome
      exact absurd ht (by simp)
    | cons i rest ih =>
      intro tickets hsome t ht
      rw [generateRandomTicketsGo] at hsome
      rcases hgen : generateRandomTicket selectionSize selectionMax (rand i)
        fuel with _ | t₀
      · rw [hgen] at hsome
        exact absurd hsome (by simp)
      · rw [hgen] at hsome
        rcases hrest : generateRandomTicketsGo selectionMax selectionSize rand
          fuel rest with _ | ts
        · rw [hrest] at hsome
          exact absurd hsome (by simp)
        · rw [hrest] at hsome
          obtain rfl : t₀ :: ts = tickets := by simpa using hsome
          rcases List.mem_cons.mp ht with rfl | ht
          · exact generateRandomTicketLoop_sound selectionSize selectionMax
              (by omega) (rand i) fuel 0 ∅ (by simp) (by simp) t hgen
          · exact ih ts hrest t ht

end WenwinSdk
